import Mathlib

/-!
Verification development for `src/desktop_release.js` of the element-builder
repository (the desktop release build orchestrator).

The JavaScript source is shallowly embedded:
* pure string/list computations (`setDebVersion` content, `getMatchingFilesInDir`,
  `getRepoTargets`, the per-deb ingestion loop of `addDeb`) become Lean functions;
* the stateful orchestration of `DesktopReleaseBuilder.start`, and of
  `DesktopReleaseBuilder.buildWin`, becomes an explicit trace semantics: each
  external side effect (rsync pull/push, secret acquisition, a platform build,
  writes to the `building` flag, Windows-builder lifecycle calls) is recorded as
  an event, and a run is a function from the failure oracle of the external
  world to the list of events performed, in program order.
-/

namespace DesktopRelease

/-- Source: `const TYPES = ['win64', 'mac', 'linux'];` (desktop_release.js line 32). -/
def TYPES : List String := ["win64", "mac", "linux"]

/-- Model of JS `String.prototype.split` with a one-character separator
(`contents.split('\n')` in `getRepoTargets`): split on every occurrence,
keeping empty pieces, so that joining the pieces with the separator restores
the input. -/
def splitChar (sep : Char) : List Char → List (List Char)
  | [] => [[]]
  | c :: rest =>
    match splitChar sep rest with
    | [] => [[c]]
    | t :: ts => if c = sep then [] :: t :: ts else (c :: t) :: ts

/-- Model of JS `line.split(': ')` (the two-character separator used in
`getRepoTargets`): split on every occurrence of `': '`. The separator's two
characters differ, so occurrences cannot overlap and this structural
recursion agrees with the JS left-to-right scan. -/
def splitColonSpace : List Char → List (List Char)
  | [] => [[]]
  | ':' :: ' ' :: rest => [] :: splitColonSpace rest
  | c :: rest =>
    match splitColonSpace rest with
    | [] => [[c]]
    | t :: ts => (c :: t) :: ts

/-- Model of JS `String.prototype.startsWith`: `isPre pre s` holds when `pre`
is an initial segment of `s`. -/
def isPre : List Char → List Char → Bool
  | [], _ => true
  | _ :: _, [] => false
  | p :: ps, c :: cs => p = c && isPre ps cs

/-- Model of the anchored-suffix regular expressions used for artifact
filtering (e.g. `/\.dmg$/.test(f)`): `endsWithPat suf s` holds when `s` ends
with the literal string `suf`. -/
def endsWithPat (suf s : String) : Bool :=
  isPre suf.data.reverse s.data.reverse

/-- Content computed by `setDebVersion(ver, templateFile, outFile)`
(desktop_release.js lines 37-45): it reads the template file and appends
`'Version: ' + ver + "\n"`, then writes the result to `outFile`.
This function maps the template file's contents to the written contents. -/
def setDebVersionContent (ver contents : String) : String :=
  contents ++ ("Version: " ++ ver ++ "\n")

/-- The accumulation loop of `getMatchingFilesInDir` (lines 49-53): walk the
directory listing in order, keeping the names `f` with `exp.test(f)`. -/
def matchingFiles (exp : String → Bool) : List String → List String
  | [] => []
  | f :: fs => if exp f then f :: matchingFiles exp fs else matchingFiles exp fs

/-- Source: `getMatchingFilesInDir(dir, exp)` (desktop_release.js lines 47-56), with the
directory listing passed explicitly. After the loop, `if (ret.length === 0)
throw new Error(...)`; otherwise the matches are returned in listing order.
(The JS error message interpolates `exp.toString()`; the model uses a fixed
message since only the raising, not the text, is observable to callers.) -/
def getMatchingFilesInDir (files : List String) (exp : String → Bool) :
    Except String (List String) :=
  let ret := matchingFiles exp files
  if ret.length = 0 then Except.error "No files found matching!"
  else Except.ok ret

/-- Decidable equality for the result type of `getMatchingFilesInDir`, so
that concrete runs can be checked by `decide`. -/
instance : DecidableEq (Except String (List String))
  | Except.ok x, Except.ok y =>
    if h : x = y then Decidable.isTrue (congrArg Except.ok h)
    else Decidable.isFalse fun hh => h (Except.ok.inj hh)
  | Except.error x, Except.error y =>
    if h : x = y then Decidable.isTrue (congrArg Except.error h)
    else Decidable.isFalse fun hh => h (Except.error.inj hh)
  | Except.ok _, Except.error _ => Decidable.isFalse fun hh => Except.noConfusion hh
  | Except.error _, Except.ok _ => Decidable.isFalse fun hh => Except.noConfusion hh

/-- Source: `getRepoTargets(repoDir)` (desktop_release.js lines 58-67), with the contents
of `conf/distributions` passed explicitly. The JS splits on `'\n'`, keeps lines
starting with `'Codename'`, and pushes `line.split(': ')[1]` — which is
`undefined` when the line has no `': '` separator, hence the `Option` in the
element type (`some t` is a real codename string, `none` is JS `undefined`). -/
def getRepoTargets (confDistributions : String) : List (Option String) :=
  (splitChar '\n' confDistributions.data).filterMap fun line =>
    if isPre "Codename".data line then
      some (((splitColonSpace line).get? 1).map fun t => String.mk t)
    else none

/-- The ingestion operations performed by `addDeb(debDir, deb)` (lines 97-113):
one `reprepro includedeb <target> <deb>` spawn per target of
`getRepoTargets(debDir)`, in listing order. -/
def addDebOps (confDistributions : String) (deb : String) :
    List (Option String × String) :=
  (getRepoTargets confDistributions).map fun t => (t, deb)

/-- The ingestion operations performed by the linux branch of
`DesktopReleaseBuilder.buildLocal` (lines 301-307): for each matched `.deb`
file, in order, `addDeb` ingests it into every repository target. -/
def linuxDebIngestOps (confDistributions : String) (debs : List String) :
    List (Option String × String) :=
  debs.flatMap fun d => addDebOps confDistributions d

/-- Executing a list of ingestion operations with a failure oracle `ok`: each
`await`ed `reprepro` spawn either succeeds (continue with the next) or rejects
(the error propagates, aborting the rest). Returns the number of operations
performed on success, or the first failing operation. -/
def runIngestOps (ok : Option String × String → Bool) :
    List (Option String × String) → Except (Option String × String) Nat
  | [] => Except.ok 0
  | op :: rest =>
    if ok op then (runIngestOps ok rest).map (· + 1) else Except.error op

/-- The externally observable events of one `DesktopReleaseBuilder.start()` run
(desktop_release.js lines 164-208), in program order. -/
inductive Ev where
  /-- Event: an assignment `this.building = b` -/
  | setB (b : Bool)
  /-- Event: `await getSecret('riot_key_container')` returned successfully -/
  | secret
  /-- Event: `pullArtifacts(this.pubDir, this.rsyncRoot)` was invoked -/
  | pull
  /-- Event: `this.build(type)` was invoked for platform `t` -/
  | build (t : String)
  /-- Event: `pushArtifacts(this.pubDir, this.rsyncRoot)` was invoked -/
  | push
deriving DecidableEq

/-- Predicate: `isBuild e = true` iff `e` is a platform-build invocation. -/
def isBuild : Ev → Bool
  | Ev.build _ => true
  | _ => false

/-- Result of one `start()` invocation: the event trace, the final value of
`this.building`, and whether the invocation returned normally (`ok = true`)
rather than propagating an exception. -/
structure RunResult where
  trace : List Ev
  building : Bool
  ok : Bool
deriving DecidableEq

/-- The `for (const type of toBuild)` loop of `start()` (lines 190-200): each
platform build is awaited inside a `try`; on failure the `catch` logs and
`return`s, so later platforms are not attempted and the push is skipped.
Returns the build events in order and whether the whole loop succeeded. -/
def buildLoop (buildOk : String → Bool) : List String → List Ev × Bool
  | [] => ([], true)
  | t :: rest =>
    if buildOk t then
      let r := buildLoop buildOk rest
      (Ev.build t :: r.1, r.2)
    else
      ([Ev.build t], false)

set_option linter.unusedVariables false in
/-- One invocation of `DesktopReleaseBuilder.start()` (lines 164-208), as a
function of the `building` flag value `b0` at entry and the failure oracle of
the external world (`secretOk`: does `getSecret` resolve; `pullOk`/`pushOk`:
do the rsync transfers succeed; `buildOk`: does a given platform's build
succeed).

Mirrors the source statement by statement:
* line 166: `this.building = false;` — unconditional, so the local flag value
  is `false` from here on regardless of `b0`;
* line 174: `await getSecret(...)` — throws if unavailable;
* line 176: `if (this.building) return;` — reads the flag just cleared;
* line 182: `if (toBuild.length === 0) return;`
* lines 184-207: `try { this.building = true; pull; loop; push } finally
  { this.building = false; }`. A platform-build failure is caught and turns
  into a plain `return` (normal completion); a pull/push failure propagates.

The interleaving modelled for a re-entrant call is the one the `building`
flag is meant to guard: the other invocation is suspended at one of its own
`await`s inside the `try` (where it performs no writes to the flag until its
`finally`), so no concurrent write to the flag occurs between this
invocation's entry and its line-176 check. (The entry value `b0` is
deliberately never read again after the line-166 clear — that is precisely
what the source does.) -/
def startRun (b0 secretOk pullOk : Bool) (buildOk : String → Bool)
    (pushOk : Bool) : RunResult :=
  -- line 166: this.building = false
  let b1 := false
  let tr1 : List Ev := [Ev.setB false]
  -- line 174: await getSecret('riot_key_container')
  if secretOk = false then
    { trace := tr1, building := b1, ok := false }
  else
    let tr2 := tr1 ++ [Ev.secret]
    -- line 176: if (this.building) return
    if b1 = true then { trace := tr2, building := b1, ok := true }
    -- line 182: if (toBuild.length === 0) return
    else if TYPES.length = 0 then { trace := tr2, building := b1, ok := true }
    else
      -- line 185: this.building = true (inside try)
      let tr3 := tr2 ++ [Ev.setB true]
      -- line 188: await pullArtifacts(...)
      if pullOk = false then
        { trace := tr3 ++ [Ev.pull, Ev.setB false], building := false, ok := false }
      else
        let tr4 := tr3 ++ [Ev.pull]
        let lr := buildLoop buildOk TYPES
        if lr.2 = false then
          -- catch: log and return (through the finally)
          { trace := tr4 ++ lr.1 ++ [Ev.setB false], building := false, ok := true }
        else
          -- line 203: await pushArtifacts(...)
          { trace := tr4 ++ lr.1 ++ [Ev.push, Ev.setB false], building := false,
            ok := pushOk }

/-- A JSON value, as produced by `JSON.parse` on `package.json`: objects are
key/value lists in insertion order (JS objects from `JSON.parse` have unique
keys and preserve textual order). -/
inductive JVal where
  | str (s : String)
  | num (n : Int)
  | bool (b : Bool)
  | null
  | arr (xs : List JVal)
  | obj (fields : List (String × JVal))

/-- One key assignment of `Object.assign(cfg, src)` on a JS object: an existing
key keeps its position and gets the new value; a fresh key is appended. -/
def objAssign (o : List (String × JVal)) (k : String) (v : JVal) :
    List (String × JVal) :=
  if o.any (fun kv => kv.1 = k) then
    o.map fun kv => if kv.1 = k then (k, v) else kv
  else o ++ [(k, v)]

/-- Property lookup on a JS object (first occurrence of the key). -/
def objGet (o : List (String × JVal)) (k : String) : Option JVal :=
  (o.find? fun kv => kv.1 = k).map Prod.snd

/-- The `--deb-custom-control=debcontrol` flag written into `deb.fpm`
(desktop_release.js line 226). -/
def debControlFlag : JVal := JVal.str "--deb-custom-control=debcontrol"

/-- The configuration object written by
`DesktopReleaseBuilder.writeElectronBuilderConfigFile(type, repoDir, ...)`
(desktop_release.js lines 210-234), as a function of the cloned package.json's
`build` section `pkgBuild` and its top-level `productName` `pkgProductName`:
`cfg = pkg.build`, then `productName = (type === 'linux') ? 'Element' :
pkg.productName`, then `Object.assign(cfg, { extraMetadata: { productName },
deb: { fpm: ["--deb-custom-control=debcontrol"] } })` — the assign replaces
the whole `extraMetadata` and `deb` values. -/
def electronBuilderConfig (type : String) (pkgProductName : JVal)
    (pkgBuild : List (String × JVal)) : List (String × JVal) :=
  let productName := if type = "linux" then JVal.str "Element" else pkgProductName
  objAssign
    (objAssign pkgBuild "extraMetadata" (JVal.obj [("productName", productName)]))
    "deb" (JVal.obj [("fpm", JVal.arr [debControlFlag])])

/-- Setting the sub-field `o[k][sub] := v` while preserving the other
sub-fields of `o[k]` (a path update; when `o[k]` is missing or not an object
it becomes the one-field object). Used only to state the spec's reading of
the config claim, for comparison with `electronBuilderConfig`. -/
def setSubField (o : List (String × JVal)) (k sub : String) (v : JVal) :
    List (String × JVal) :=
  match objGet o k with
  | some (JVal.obj inner) => objAssign o k (JVal.obj (objAssign inner sub v))
  | _ => objAssign o k (JVal.obj [(sub, v)])

/-- Modelled from the spec claim's words (not from the source): the generated
configuration read as "the build section with `extraMetadata.productName` set
and with `deb.fpm` set" — i.e. two path updates that keep any other
sub-fields of `extraMetadata` and `deb`. -/
def electronBuilderConfigClaimed (type : String) (pkgProductName : JVal)
    (pkgBuild : List (String × JVal)) : List (String × JVal) :=
  let productName := if type = "linux" then JVal.str "Element" else pkgProductName
  setSubField (setSubField pkgBuild "extraMetadata" "productName" productName)
    "deb" "fpm" (JVal.arr [debControlFlag])

/-- The externally observable events of one `DesktopReleaseBuilder.buildWin`
run (desktop_release.js lines 335-425), in program order. The `appendScript`
calls are pure accumulation on the local script string and cannot fail, so
they are not separate events. -/
inductive WEv where
  /-- Event: mkdir, rimraf, clone, read package.json, write config (lines 336-356) -/
  | cloneRepo
  /-- Event: `await builder.start()` (line 363) returned successfully -/
  | builderStart
  /-- Event: `await builder.runScript()` (line 388) was invoked -/
  | runScript
  /-- Event: the `.exe` extraction loop (lines 397-402) was entered -/
  | extractExe
  /-- Event: the `.nupkg` extraction loop (lines 403-408) was entered -/
  | extractNupkg
  /-- Event: the `RELEASES` extraction loop (lines 409-414) was entered -/
  | extractReleases
  /-- Event: `await builder.stop()` (line 416, the `finally` block) was invoked -/
  | builderStop
  /-- Event: the final rimraf of the build dir (lines 420-424) was invoked -/
  | removeBuildDir
deriving DecidableEq

/-- One invocation of `DesktopReleaseBuilder.buildWin` as a function of the
failure oracle: `startOk` — does `builder.start()` succeed (it runs *before*
the `try`); `runScriptOk` — does the accumulated remote script succeed;
`exeOk`/`nupkgOk`/`releasesOk` — does each artifact-extraction loop succeed
(its `getMatchingFilesInDir` finds matches and the copies succeed). The
region from line 368 to line 414 is guarded by `try ... finally
{ await builder.stop(); }`: any throw inside it still runs `builder.stop()`
before propagating. Returns the trace and whether the method returned
normally. -/
def buildWinRun (startOk runScriptOk exeOk nupkgOk releasesOk : Bool) :
    List WEv × Bool :=
  let pre : List WEv := [WEv.cloneRepo]
  -- line 363: await builder.start() — before the try/finally
  if startOk = false then (pre, false)
  else
    let pre2 := pre ++ [WEv.builderStart]
    -- try block (lines 368-414)
    if runScriptOk = false then
      (pre2 ++ [WEv.runScript, WEv.builderStop], false)
    else if exeOk = false then
      (pre2 ++ [WEv.runScript, WEv.extractExe, WEv.builderStop], false)
    else if nupkgOk = false then
      (pre2 ++ [WEv.runScript, WEv.extractExe, WEv.extractNupkg, WEv.builderStop],
        false)
    else if releasesOk = false then
      (pre2 ++ [WEv.runScript, WEv.extractExe, WEv.extractNupkg,
        WEv.extractReleases, WEv.builderStop], false)
    else
      (pre2 ++ [WEv.runScript, WEv.extractExe, WEv.extractNupkg,
        WEv.extractReleases, WEv.builderStop, WEv.removeBuildDir], true)

/-- Effect of a trace on the remote published artifact tree: the only event
that mutates it is `pushArtifacts`, an rsync `--delete` mirror making the
remote equal to the local tree (`localTree`). -/
def remoteAfter (localTree : List String) : List Ev → List String → List String
  | [], remote => remote
  | Ev.push :: rest, _ => remoteAfter localTree rest localTree
  | _ :: rest, remote => remoteAfter localTree rest remote

/-! ## Helper lemmas -/

/-- Evaluation of the platform loop on the configured `TYPES` (unfolded to its
literal value), by cases on the three per-platform outcomes. -/
theorem buildLoop_TYPES_eq (bOk : String → Bool) :
    buildLoop bOk ["win64", "mac", "linux"] =
      if bOk "win64" then
        if bOk "mac" then
          if bOk "linux" then
            ([Ev.build "win64", Ev.build "mac", Ev.build "linux"], true)
          else ([Ev.build "win64", Ev.build "mac", Ev.build "linux"], false)
        else ([Ev.build "win64", Ev.build "mac"], false)
      else ([Ev.build "win64"], false) := by
  by_cases h1 : bOk "win64" <;> by_cases h2 : bOk "mac" <;>
    by_cases h3 : bOk "linux" <;> simp [buildLoop, h1, h2, h3]

/-- The four possible traces of a `start()` run that acquires its secret and
pulls successfully, one per outcome of the platform loop. -/
theorem startRun_trace_cases (b0 pushOk : Bool) (bOk : String → Bool) :
    (bOk "win64" = false ∧
      (startRun b0 true true bOk pushOk).trace
        = [Ev.setB false, Ev.secret, Ev.setB true, Ev.pull, Ev.build "win64",
           Ev.setB false])
    ∨ (bOk "win64" = true ∧ bOk "mac" = false ∧
      (startRun b0 true true bOk pushOk).trace
        = [Ev.setB false, Ev.secret, Ev.setB true, Ev.pull, Ev.build "win64",
           Ev.build "mac", Ev.setB false])
    ∨ (bOk "win64" = true ∧ bOk "mac" = true ∧ bOk "linux" = false ∧
      (startRun b0 true true bOk pushOk).trace
        = [Ev.setB false, Ev.secret, Ev.setB true, Ev.pull, Ev.build "win64",
           Ev.build "mac", Ev.build "linux", Ev.setB false])
    ∨ (bOk "win64" = true ∧ bOk "mac" = true ∧ bOk "linux" = true ∧
      (startRun b0 true true bOk pushOk).trace
        = [Ev.setB false, Ev.secret, Ev.setB true, Ev.pull, Ev.build "win64",
           Ev.build "mac", Ev.build "linux", Ev.push, Ev.setB false]) := by
  by_cases h1 : bOk "win64" <;> by_cases h2 : bOk "mac" <;>
    by_cases h3 : bOk "linux" <;>
    simp [startRun, TYPES, buildLoop_TYPES_eq, h1, h2, h3]

/-- A trace with no push leaves the remote published tree unchanged. -/
theorem remoteAfter_of_no_push (localTree : List String) (tr : List Ev)
    (remote : List String) (h : Ev.push ∉ tr) :
    remoteAfter localTree tr remote = remote := by
  induction tr generalizing remote with
  | nil => rfl
  | cons e rest ih =>
    rw [List.mem_cons, not_or] at h
    cases e with
    | push => exact absurd rfl h.1
    | setB b => exact ih remote h.2
    | secret => exact ih remote h.2
    | pull => exact ih remote h.2
    | build t => exact ih remote h.2

/-- The accumulation loop of `getMatchingFilesInDir` is `List.filter`. -/
theorem matchingFiles_eq_filter (exp : String → Bool) (files : List String) :
    matchingFiles exp files = files.filter exp := by
  induction files with
  | nil => rfl
  | cons f fs ih =>
    by_cases h : exp f <;> simp [matchingFiles, List.filter_cons, h, ih]

/-- Searching the key `k` in the map branch of `objAssign` finds the
replacement `(k, v)`, provided some entry has key `k`. -/
theorem find?_assign_self (k : String) (v : JVal) :
    ∀ o : List (String × JVal), o.any (fun kv => kv.1 = k) = true →
      ((o.map fun kv => if kv.1 = k then (k, v) else kv).find?
        fun kv => kv.1 = k) = some (k, v)
  | [], h => by simp at h
  | kv :: rest, h => by
    rw [List.map_cons]
    by_cases hk : kv.1 = k
    · rw [if_pos hk, List.find?_cons_of_pos _ (by simp)]
    · rw [if_neg hk, List.find?_cons_of_neg _ (by simpa using hk)]
      apply find?_assign_self
      simpa [List.any_cons, hk] using h

/-- Searching a key other than `k` is unaffected by the map branch of
`objAssign`. -/
theorem find?_assign_ne (k k' : String) (v : JVal) (h : k' ≠ k) :
    ∀ o : List (String × JVal),
      ((o.map fun kv => if kv.1 = k then (k, v) else kv).find?
        fun kv => kv.1 = k')
        = o.find? fun kv => kv.1 = k'
  | [] => rfl
  | kv :: rest => by
    rw [List.map_cons]
    by_cases hk : kv.1 = k
    · rw [if_pos hk,
        List.find?_cons_of_neg _ (by simpa using fun hh : k = k' => h hh.symm),
        List.find?_cons_of_neg _
          (by simpa using fun hh : kv.1 = k' => h (hh.symm.trans hk))]
      exact find?_assign_ne k k' v h rest
    · rw [if_neg hk]
      by_cases hk' : kv.1 = k'
      · rw [List.find?_cons_of_pos _ (by simpa using hk'),
          List.find?_cons_of_pos _ (by simpa using hk')]
      · rw [List.find?_cons_of_neg _ (by simpa using hk'),
          List.find?_cons_of_neg _ (by simpa using hk')]
        exact find?_assign_ne k k' v h rest

/-- If no entry has key `k`, searching for `k` fails. -/
theorem find?_none_of_not_any (k : String) :
    ∀ o : List (String × JVal), o.any (fun kv => kv.1 = k) = false →
      (o.find? fun kv => kv.1 = k) = none
  | [], _ => rfl
  | kv :: rest, h => by
    have hk : ¬(kv.1 = k) := by
      intro hh; simp [List.any_cons, hh] at h
    have hrest : rest.any (fun kv => kv.1 = k) = false := by
      simpa [List.any_cons, hk] using h
    rw [List.find?_cons_of_neg _ (by simpa using hk)]
    exact find?_none_of_not_any k rest hrest

/-- Looking up the key just assigned by `objAssign` yields the new value. -/
theorem objGet_objAssign_self (o : List (String × JVal)) (k : String)
    (v : JVal) : objGet (objAssign o k v) k = some v := by
  rw [objAssign]
  by_cases ha : o.any (fun kv => kv.1 = k)
  · rw [if_pos ha]
    simp only [objGet]
    rw [find?_assign_self k v o ha]
    rfl
  · rw [if_neg ha]
    simp only [objGet]
    rw [List.find?_append,
      find?_none_of_not_any k o (by simp only [Bool.not_eq_true] at ha; exact ha)]
    simp

/-- Looking up a different key after `objAssign` is unchanged. -/
theorem objGet_objAssign_ne (o : List (String × JVal)) (k k' : String)
    (v : JVal) (h : k' ≠ k) : objGet (objAssign o k v) k' = objGet o k' := by
  rw [objAssign]
  by_cases ha : o.any (fun kv => kv.1 = k)
  · rw [if_pos ha]
    simp only [objGet]
    rw [find?_assign_ne k k' v h o]
  · have h1 : ¬(k = k') := fun hh => h hh.symm
    rw [if_neg ha]
    simp only [objGet]
    rw [List.find?_append]
    simp [h1]

/-! ## Claim theorems -/

/-- C1 (the claim fails on the code; this theorem evaluates the code at the
failing scenario): a second `start()` entered while a previous run is in
progress (`building = true` at entry, modelled by `b0 = true`) is NOT a
silent no-op. Line 166 unconditionally clears `this.building` before the
line-176 guard reads it, so the guard never fires: with all external
operations succeeding, the re-entrant invocation pulls artifacts, builds
every configured platform and pushes — a full second build sequence. -/
theorem reentrantStartNotNoOp :
    (startRun true true true (fun _ => true) true).trace
      = [Ev.setB false, Ev.secret, Ev.setB true, Ev.pull, Ev.build "win64",
         Ev.build "mac", Ev.build "linux", Ev.push, Ev.setB false]
    ∧ Ev.pull ∈ (startRun true true true (fun _ => true) true).trace
    ∧ Ev.push ∈ (startRun true true true (fun _ => true) true).trace
    ∧ ∀ t ∈ TYPES,
        Ev.build t ∈ (startRun true true true (fun _ => true) true).trace := by
  decide

/-- C2: if any single platform's build fails, `pushArtifacts` is never
invoked, the platforms after the failing one are not built, and the remote
published tree after the run equals the one before it; in every run the pull
is the fourth event and no build precedes it; and in any run whatsoever a
push occurs only if every configured platform built successfully, in which
case the trace is exactly pull, then the three builds in order, then push. -/
theorem noPublishOnPartialFailure (b0 pushOk : Bool) (buildOk : String → Bool)
    (hfail : ∃ t ∈ TYPES, buildOk t = false) :
    Ev.push ∉ (startRun b0 true true buildOk pushOk).trace
    ∧ (∀ remote localTree : List String,
        remoteAfter localTree (startRun b0 true true buildOk pushOk).trace remote
          = remote)
    ∧ (buildOk "win64" = false →
        Ev.build "mac" ∉ (startRun b0 true true buildOk pushOk).trace
        ∧ Ev.build "linux" ∉ (startRun b0 true true buildOk pushOk).trace)
    ∧ (buildOk "mac" = false →
        Ev.build "linux" ∉ (startRun b0 true true buildOk pushOk).trace)
    ∧ (startRun b0 true true buildOk pushOk).trace.get? 3 = some Ev.pull
    ∧ (∀ e ∈ (startRun b0 true true buildOk pushOk).trace.take 3,
        isBuild e = false)
    ∧ (∀ buildOk2 : String → Bool,
        Ev.push ∈ (startRun b0 true true buildOk2 pushOk).trace →
          (∀ t ∈ TYPES, buildOk2 t = true)
          ∧ (startRun b0 true true buildOk2 pushOk).trace
              = [Ev.setB false, Ev.secret, Ev.setB true, Ev.pull,
                 Ev.build "win64", Ev.build "mac", Ev.build "linux", Ev.push,
                 Ev.setB false]) := by
  have hpush : ∀ buildOk2 : String → Bool,
      Ev.push ∈ (startRun b0 true true buildOk2 pushOk).trace →
        (∀ t ∈ TYPES, buildOk2 t = true)
        ∧ (startRun b0 true true buildOk2 pushOk).trace
            = [Ev.setB false, Ev.secret, Ev.setB true, Ev.pull,
               Ev.build "win64", Ev.build "mac", Ev.build "linux", Ev.push,
               Ev.setB false] := by
    intro bOk2 hmem
    rcases startRun_trace_cases b0 pushOk bOk2 with
      ⟨h1, ht⟩ | ⟨h1, h2, ht⟩ | ⟨h1, h2, h3, ht⟩ | ⟨h1, h2, h3, ht⟩
    · rw [ht] at hmem; simp at hmem
    · rw [ht] at hmem; simp at hmem
    · rw [ht] at hmem; simp at hmem
    · refine ⟨?_, ht⟩
      intro t htm
      simp only [TYPES, List.mem_cons, List.not_mem_nil, or_false] at htm
      rcases htm with rfl | rfl | rfl <;> assumption
  rcases startRun_trace_cases b0 pushOk buildOk with
    ⟨h1, ht⟩ | ⟨h1, h2, ht⟩ | ⟨h1, h2, h3, ht⟩ | ⟨h1, h2, h3, ht⟩
  · exact ⟨by rw [ht]; decide,
      fun remote localTree => remoteAfter_of_no_push _ _ _ (by rw [ht]; decide),
      fun _ => by rw [ht]; exact ⟨by decide, by decide⟩,
      fun _ => by rw [ht]; decide,
      by rw [ht]; rfl, by rw [ht]; decide, hpush⟩
  · exact ⟨by rw [ht]; decide,
      fun remote localTree => remoteAfter_of_no_push _ _ _ (by rw [ht]; decide),
      fun hw => absurd h1 (by simp [hw]),
      fun _ => by rw [ht]; decide,
      by rw [ht]; rfl, by rw [ht]; decide, hpush⟩
  · exact ⟨by rw [ht]; decide,
      fun remote localTree => remoteAfter_of_no_push _ _ _ (by rw [ht]; decide),
      fun hw => absurd h1 (by simp [hw]),
      fun hm => absurd h2 (by simp [hm]),
      by rw [ht]; rfl, by rw [ht]; decide, hpush⟩
  · obtain ⟨t, htm, hf⟩ := hfail
    simp only [TYPES, List.mem_cons, List.not_mem_nil, or_false] at htm
    rcases htm with rfl | rfl | rfl
    · rw [h1] at hf; cases hf
    · rw [h2] at hf; cases hf
    · rw [h3] at hf; cases hf

/-- Witness for C2 at a concrete failing oracle (every build fails). -/
theorem noPublishOnPartialFailureWitness :
    (∃ t ∈ TYPES, (fun _ : String => false) t = false)
    ∧ Ev.push ∉ (startRun false true true (fun _ => false) false).trace :=
  ⟨⟨"win64", by decide, rfl⟩,
    (noPublishOnPartialFailure false false (fun _ => false)
      ⟨"win64", by decide, rfl⟩).1⟩

/-- C3 counterexample: the configured platform list is NOT the claimed
four-element enumeration `[win64, win32, mac, linux]`; `win32` is not a
configured type and is never attempted by a run. -/
theorem typesNotFourPlatforms :
    TYPES ≠ ["win64", "win32", "mac", "linux"]
    ∧ "win32" ∉ TYPES
    ∧ Ev.build "win32" ∉ (startRun false true true (fun _ => true) true).trace := by
  decide

/-- C3 amended: the configured platform list is the fixed three-element
enumeration `[win64, mac, linux]`; a run in which every platform build
succeeds performs exactly these three builds, in this order. -/
theorem runAttemptsExactlyTypes (b0 pushOk : Bool) (buildOk : String → Bool)
    (h : ∀ t ∈ TYPES, buildOk t = true) :
    TYPES = ["win64", "mac", "linux"]
    ∧ (startRun b0 true true buildOk pushOk).trace.filter isBuild
        = TYPES.map Ev.build := by
  have h1 : buildOk "win64" = true := h _ (by decide)
  have h2 : buildOk "mac" = true := h _ (by decide)
  have h3 : buildOk "linux" = true := h _ (by decide)
  rcases startRun_trace_cases b0 pushOk buildOk with
    ⟨ha, ht⟩ | ⟨ha, hb, ht⟩ | ⟨ha, hb, hc, ht⟩ | ⟨ha, hb, hc, ht⟩
  · rw [h1] at ha; cases ha
  · rw [h2] at hb; cases hb
  · rw [h3] at hc; cases hc
  · exact ⟨rfl, by rw [ht]; decide⟩

/-- Witness for C3's amended theorem at the all-success oracle. -/
theorem runAttemptsExactlyTypesWitness :
    (∀ t ∈ TYPES, (fun _ : String => true) t = true)
    ∧ (startRun false true true (fun _ => true) true).trace.filter isBuild
        = TYPES.map Ev.build :=
  ⟨by decide, (runAttemptsExactlyTypes false true (fun _ => true) (by decide)).2⟩

/-- C4: `getMatchingFilesInDir` returns exactly the filenames of the listing
that match the pattern, in listing order (`List.filter`), and raises an error
iff zero filenames match; on the spec's example listing the "ends with .dmg"
pattern yields `["a.dmg"]` and the "ends with .appimage" pattern raises. -/
theorem getMatchingFilesSpec :
    (∀ (files : List String) (exp : String → Bool),
      matchingFiles exp files = files.filter exp
      ∧ (files.filter exp ≠ [] →
          getMatchingFilesInDir files exp = Except.ok (files.filter exp))
      ∧ ((∃ msg, getMatchingFilesInDir files exp = Except.error msg) ↔
          files.filter exp = []))
    ∧ getMatchingFilesInDir ["a.dmg", "b.txt"] (endsWithPat ".dmg")
        = Except.ok ["a.dmg"]
    ∧ getMatchingFilesInDir ["a.dmg", "b.txt"] (endsWithPat ".appimage")
        = Except.error "No files found matching!" := by
  refine ⟨?_, by decide, by decide⟩
  intro files exp
  refine ⟨matchingFiles_eq_filter exp files, ?_, ?_, ?_⟩
  · intro hne
    simp only [getMatchingFilesInDir, matchingFiles_eq_filter]
    rw [if_neg (by simpa [List.length_eq_zero] using hne)]
  · rintro ⟨msg, hmsg⟩
    by_cases hf : files.filter exp = []
    · exact hf
    · simp only [getMatchingFilesInDir, matchingFiles_eq_filter] at hmsg
      rw [if_neg (by simpa [List.length_eq_zero] using hf)] at hmsg
      cases hmsg
  · intro hf
    exact ⟨"No files found matching!",
      by simp [getMatchingFilesInDir, matchingFiles_eq_filter, hf]⟩

/-- Witness for C4's nonempty-match branch at a concrete listing. -/
theorem getMatchingFilesSpecWitness :
    (["y.deb"].filter (endsWithPat ".deb") ≠ [])
    ∧ getMatchingFilesInDir ["y.deb"] (endsWithPat ".deb")
        = Except.ok (["y.deb"].filter (endsWithPat ".deb")) :=
  ⟨by decide,
    (getMatchingFilesSpec.1 ["y.deb"] (endsWithPat ".deb")).2.1 (by decide)⟩

/-- C5 counterexample: for a manifest whose `build.extraMetadata` carries an
additional field, the code's `Object.assign` replaces the entire
`extraMetadata` object (dropping the extra field), so the generated config
differs from the claim's reading — "the build section with
`extraMetadata.productName` set", which would keep the sibling field. -/
theorem electronBuilderConfigOverwrites :
    electronBuilderConfig "mac" (JVal.str "Riot")
        [("extraMetadata", JVal.obj [("teamId", JVal.str "notarize")])]
      ≠ electronBuilderConfigClaimed "mac" (JVal.str "Riot")
        [("extraMetadata", JVal.obj [("teamId", JVal.str "notarize")])]
    ∧ objGet (electronBuilderConfig "mac" (JVal.str "Riot")
        [("extraMetadata", JVal.obj [("teamId", JVal.str "notarize")])])
        "extraMetadata"
      = some (JVal.obj [("productName", JVal.str "Riot")])
    ∧ objGet (electronBuilderConfigClaimed "mac" (JVal.str "Riot")
        [("extraMetadata", JVal.obj [("teamId", JVal.str "notarize")])])
        "extraMetadata"
      = some (JVal.obj [("teamId", JVal.str "notarize"),
          ("productName", JVal.str "Riot")]) := by
  have hcode : objGet (electronBuilderConfig "mac" (JVal.str "Riot")
      [("extraMetadata", JVal.obj [("teamId", JVal.str "notarize")])])
      "extraMetadata"
      = some (JVal.obj [("productName", JVal.str "Riot")]) := by
    simp [electronBuilderConfig, objAssign, objGet, debControlFlag]
  have hclaim : objGet (electronBuilderConfigClaimed "mac" (JVal.str "Riot")
      [("extraMetadata", JVal.obj [("teamId", JVal.str "notarize")])])
      "extraMetadata"
      = some (JVal.obj [("teamId", JVal.str "notarize"),
          ("productName", JVal.str "Riot")]) := by
    simp [electronBuilderConfigClaimed, setSubField, objAssign, objGet,
      debControlFlag]
  refine ⟨?_, hcode, hclaim⟩
  intro h
  rw [h, hclaim] at hcode
  simp at hcode

/-- C5 amended: the generated config equals the build section with the
`extraMetadata` key replaced by the one-field object `{productName: p}` —
where `p` is `"Element"` for linux and the manifest's declared `productName`
for every other platform — and the `deb` key replaced by
`{fpm: ["--deb-custom-control=debcontrol"]}` (previous sub-fields of those
two keys are dropped); every other key of the build section is unchanged. -/
theorem electronBuilderConfigFields (type : String) (pn : JVal)
    (b : List (String × JVal)) :
    objGet (electronBuilderConfig type pn b) "extraMetadata"
      = some (JVal.obj [("productName",
          if type = "linux" then JVal.str "Element" else pn)])
    ∧ objGet (electronBuilderConfig type pn b) "deb"
      = some (JVal.obj [("fpm", JVal.arr [debControlFlag])])
    ∧ (∀ k, k ≠ "extraMetadata" → k ≠ "deb" →
        objGet (electronBuilderConfig type pn b) k = objGet b k) := by
  refine ⟨?_, ?_, ?_⟩
  · simp only [electronBuilderConfig]
    rw [objGet_objAssign_ne _ _ _ _ (by decide)]
    exact objGet_objAssign_self _ _ _
  · simp only [electronBuilderConfig]
    exact objGet_objAssign_self _ _ _
  · intro k hk1 hk2
    simp only [electronBuilderConfig]
    rw [objGet_objAssign_ne _ _ _ _ hk2, objGet_objAssign_ne _ _ _ _ hk1]

/-- Witness for C5's amended theorem: an unrelated key (`appId`) of the build
section is preserved by the config generation, at a concrete manifest. -/
theorem electronBuilderConfigFieldsWitness :
    ("appId" ≠ "extraMetadata") ∧ ("appId" ≠ "deb")
    ∧ objGet (electronBuilderConfig "linux" (JVal.str "Riot")
        [("appId", JVal.str "im.riot.app")]) "appId"
      = objGet [("appId", JVal.str "im.riot.app")] "appId" :=
  ⟨by decide, by decide,
    (electronBuilderConfigFields "linux" (JVal.str "Riot")
      [("appId", JVal.str "im.riot.app")]).2.2 "appId" (by decide) (by decide)⟩

/-- C6: the Debian control file content written by `setDebVersion` is the
template file's content verbatim followed by the line `Version: <ver>\n`; in
particular, for template `"Package: element\n"` and version `"1.6.0"` the
output is exactly `"Package: element\nVersion: 1.6.0\n"`. -/
theorem setDebVersionAppendsVersionLine (ver template : String) :
    setDebVersionContent ver template = template ++ "Version: " ++ ver ++ "\n"
    ∧ setDebVersionContent "1.6.0" "Package: element\n"
        = "Package: element\nVersion: 1.6.0\n" := by
  refine ⟨?_, rfl⟩
  simp [setDebVersionContent, String.append_assoc]

/-- C7: Debian ingestion is per-target and per-package: the operations are
exactly the (target, package) products — N packages into M targets is N·M
operations, in order (packages outer, targets inner) — each independently
failable (a loop of operations all succeed iff each one does); on the spec's
example, one `.deb` into targets buster and bullseye is exactly two
ingestion operations. -/
theorem debIngestionPerTargetPerPackage :
    (∀ (conf : String) (debs : List String),
      (linuxDebIngestOps conf debs).length
        = debs.length * (getRepoTargets conf).length)
    ∧ (∀ (conf : String) (debs : List String) (t : Option String) (d : String),
        (t, d) ∈ linuxDebIngestOps conf debs ↔
          t ∈ getRepoTargets conf ∧ d ∈ debs)
    ∧ (∀ (ok : Option String × String → Bool)
        (ops : List (Option String × String)),
        runIngestOps ok ops = Except.ok ops.length ↔ ∀ op ∈ ops, ok op = true)
    ∧ getRepoTargets "Codename: buster\nCodename: bullseye"
        = [some "buster", some "bullseye"]
    ∧ linuxDebIngestOps "Codename: buster\nCodename: bullseye" ["element.deb"]
        = [(some "buster", "element.deb"), (some "bullseye", "element.deb")] := by
  refine ⟨?_, ?_, ?_, by decide, by decide⟩
  · intro conf debs
    induction debs with
    | nil => simp [linuxDebIngestOps]
    | cons d ds ih =>
      simp only [linuxDebIngestOps, List.flatMap_cons, List.length_append,
        List.length_cons] at ih ⊢
      rw [ih, addDebOps, List.length_map, Nat.succ_mul, Nat.add_comm]
  · intro conf debs t d
    simp only [linuxDebIngestOps, addDebOps, List.mem_flatMap, List.mem_map,
      Prod.mk.injEq]
    constructor
    · rintro ⟨d', hd', t', ht', rfl, rfl⟩
      exact ⟨ht', hd'⟩
    · rintro ⟨ht, hd⟩
      exact ⟨d, hd, t, ht, rfl, rfl⟩
  · intro ok ops
    induction ops with
    | nil => simp [runIngestOps]
    | cons op rest ih =>
      rw [List.forall_mem_cons]
      by_cases hok : ok op
      · rw [runIngestOps, if_pos hok]
        cases hr : runIngestOps ok rest with
        | ok n =>
          rw [hr] at ih
          simp only [Except.map, List.length_cons, Except.ok.injEq] at ih ⊢
          constructor
          · intro hn
            exact ⟨hok, ih.mp (by omega)⟩
          · intro ⟨_, hall⟩
            have := ih.mpr hall
            omega
        | error e =>
          rw [hr] at ih
          simp only [Except.map, List.length_cons] at ih ⊢
          constructor
          · intro hn; cases hn
          · intro ⟨_, hall⟩
            exact absurd (ih.mpr hall) (by simp)
      · rw [runIngestOps, if_neg hok]
        constructor
        · intro hn; cases hn
        · intro ⟨h1, _⟩; exact absurd h1 hok

/-- Witness for C7's all-succeed branch on a concrete operation list. -/
theorem debIngestionPerTargetPerPackageWitness :
    (∀ op ∈ [(some "buster", "element.deb")],
      (fun _ : Option String × String => true) op = true)
    ∧ runIngestOps (fun _ => true) [(some "buster", "element.deb")]
        = Except.ok [(some "buster", "element.deb")].length :=
  ⟨by decide,
    (debIngestionPerTargetPerPackage.2.2.1 (fun _ => true)
      [(some "buster", "element.deb")]).mpr (by decide)⟩

/-- C8: the signing credential is acquired before any network or build side
effect. When `getSecret` fails the run fails with no side effect: the trace
is just the line-166 flag clear — no pull, no build, no push — and the
`building` guard is never set to `true`. When it succeeds, the first two
events of any run are the flag clear followed by the acquisition, before any
other effect. -/
theorem secretFailureNoSideEffects (b0 pullOk pushOk : Bool)
    (buildOk : String → Bool) :
    startRun b0 false pullOk buildOk pushOk
      = { trace := [Ev.setB false], building := false, ok := false }
    ∧ Ev.pull ∉ (startRun b0 false pullOk buildOk pushOk).trace
    ∧ Ev.push ∉ (startRun b0 false pullOk buildOk pushOk).trace
    ∧ (∀ t, Ev.build t ∉ (startRun b0 false pullOk buildOk pushOk).trace)
    ∧ Ev.setB true ∉ (startRun b0 false pullOk buildOk pushOk).trace
    ∧ (startRun b0 true pullOk buildOk pushOk).trace.take 2
        = [Ev.setB false, Ev.secret] := by
  have he : startRun b0 false pullOk buildOk pushOk
      = { trace := [Ev.setB false], building := false, ok := false } := by
    simp [startRun]
  refine ⟨he, ?_, ?_, ?_, ?_, ?_⟩
  · rw [he]; decide
  · rw [he]; decide
  · intro t; rw [he]; simp
  · rw [he]; decide
  · cases pullOk with
    | false => simp [startRun, TYPES]
    | true =>
      by_cases hb : (buildLoop buildOk ["win64", "mac", "linux"]).2 <;>
        simp [startRun, TYPES, hb]

/-- Witness for C8 at a concrete oracle. -/
theorem secretFailureNoSideEffectsWitness :
    Ev.pull ∉ (startRun false false false (fun _ => false) false).trace :=
  (secretFailureNoSideEffects false false false (fun _ => false)).2.1

/-- C9: in `buildWin`, once `builder.start()` has succeeded (the guarded
region is entered), `builder.stop()` is invoked exactly once on every exit
path: on a failure of the remote script or of any artifact-extraction step
the trace ends with the stop (it runs right before the error propagates),
and on success the stop precedes the method's return. -/
theorem buildWinAlwaysStops (s r e1 e2 e3 : Bool) (hs : s = true) :
    WEv.builderStop ∈ (buildWinRun s r e1 e2 e3).1
    ∧ (buildWinRun s r e1 e2 e3).1.count WEv.builderStop = 1
    ∧ ((buildWinRun s r e1 e2 e3).2 = false →
        (buildWinRun s r e1 e2 e3).1.getLast? = some WEv.builderStop)
    ∧ ((buildWinRun s r e1 e2 e3).2 = true →
        (buildWinRun s r e1 e2 e3).1
          = [WEv.cloneRepo, WEv.builderStart, WEv.runScript, WEv.extractExe,
             WEv.extractNupkg, WEv.extractReleases, WEv.builderStop,
             WEv.removeBuildDir]) := by
  subst hs
  cases r <;> cases e1 <;> cases e2 <;> cases e3 <;> decide

/-- Witness for C9 at a concrete oracle (remote script fails). -/
theorem buildWinAlwaysStopsWitness :
    true = true
    ∧ WEv.builderStop ∈ (buildWinRun true false true true true).1 :=
  ⟨rfl, (buildWinAlwaysStops true false true true true rfl).1⟩

/-- C10: when `conf/distributions` contains no line starting with
`Codename`, `getRepoTargets` returns the empty list and `addDeb` performs
zero ingestion operations and succeeds for every failure oracle — whereas
the artifact filter (`getMatchingFilesInDir`) raises on every zero-match
listing: the empty-match hard-failure rule does not apply to an empty
distribution-target listing. -/
theorem emptyTargetsNoIngestOk (conf : String)
    (h : ∀ line ∈ splitChar '\n' conf.data,
      isPre "Codename".data line = false) :
    getRepoTargets conf = []
    ∧ (∀ deb, addDebOps conf deb = [])
    ∧ (∀ (ok : Option String × String → Bool) (deb : String),
        runIngestOps ok (addDebOps conf deb) = Except.ok 0)
    ∧ (∀ (files : List String) (exp : String → Bool), files.filter exp = [] →
        getMatchingFilesInDir files exp
          = Except.error "No files found matching!") := by
  have hrt : getRepoTargets conf = [] := by
    rw [getRepoTargets, List.filterMap_eq_nil_iff]
    intro line hline
    simp [h line hline]
  refine ⟨hrt, ?_, ?_, ?_⟩
  · intro deb; simp [addDebOps, hrt]
  · intro ok deb; simp [addDebOps, hrt, runIngestOps]
  · intro files exp hf
    simp [getMatchingFilesInDir, matchingFiles_eq_filter, hf]

/-- Witness for C10 at a concrete Codename-free configuration file. -/
theorem emptyTargetsNoIngestOkWitness :
    (∀ line ∈ splitChar '\n' "Origin: riot.im\nSuite: stable".data,
      isPre "Codename".data line = false)
    ∧ getRepoTargets "Origin: riot.im\nSuite: stable" = [] :=
  ⟨by decide, (emptyTargetsNoIngestOk "Origin: riot.im\nSuite: stable"
    (by decide)).1⟩

end DesktopRelease
